import Mathlib

/-!
# The addon manifest `addons/main/config.cpp` of cavaux

The repository consists of one declarative file in the Arma 3 configuration
language.  The development below carries the file verbatim (`configLines`), a
reader for the configuration syntax the file is written in (comments,
preprocessor lines, `class` blocks, `key = value;` and `key[] = {...};`
entries, standalone invocations), and the properties of the manifest that the
specification states, each established by running the reader on the text.
-/

set_option maxRecDepth 100000

namespace Cavaux

/-! ## The source text -/

/-- The 34 lines of `src/addons/main/config.cpp`, in order, without their line
terminators.  Braces are written `\x7b` and `\x7d`, a backslash `\\` and a
double quote `\"`. -/
def configLines : List String :=
  [ "#include \"script_component.hpp\""
  , ""
  , "class CfgPatches \x7b"
  , "    class ADDON \x7b"
  , "        name = COMPONENT_NAME;"
  , "        units[] = \x7b\x7d;"
  , "        weapons[] = \x7b\x7d;"
  , "        requiredVersion = REQUIRED_VERSION;"
  , "        requiredAddons[] = \x7b"
  , "            // CBA"
  , "            \"cba_ui\","
  , "            \"cba_xeh\","
  , "            \"cba_jr\""
  , "        \x7d;"
  , "        author = CSTRING(modteam);"
  , "        authors[] = \x7b\"Brostrom.A (Evul)\"\x7d;"
  , "        url = CSTRING(URL);"
  , "        VERSION_CONFIG;"
  , "    \x7d;"
  , "\x7d;"
  , ""
  , "class CfgMods \x7b"
  , "    class PREFIX \x7b"
  , "        dir = \"@cavaux\";"
  , "        name = CSTRING(Name);"
  , "        picture = \"A3\\Ui_f\\data\\Logos\\arma3_expansion_alpha_ca\";"
  , "        hidePicture = \"true\";"
  , "        hideName = \"true\";"
  , "        actionName = CSTRING(Website);"
  , "        action = CSTRING(Url);"
  , "        description = CSTRING(Description);"
  , "    \x7d;"
  , "\x7d;"
  , ""
  , "#include \"CfgSettings.hpp\""
  ]

/-- Join lines with a single line feed between consecutive lines (the file has
no line feed after its last line). -/
def joinLines : List (List Char) → List Char
  | [] => []
  | [l] => l
  | l :: rest => l ++ '\n' :: joinLines rest

/-- The characters of `src/addons/main/config.cpp`. -/
def configText : List Char :=
  joinLines (configLines.map String.data)

/-! ## Lexical structure -/

/-- Lexical tokens of the configuration language. -/
inductive Token where
  /-- A bare word: a run of letters, digits and underscores. -/
  | ident (s : String)
  /-- A double-quoted string literal, without its quotes. -/
  | str (s : String)
  /-- A punctuation character. -/
  | sym (c : Char)
  /-- A preprocessor line, without the leading `#`. -/
  | directive (s : String)
  deriving DecidableEq, Repr

/-- Characters that make up a bare word. -/
def isWordChar (c : Char) : Bool :=
  c.isAlphanum || c == '_'

/-- Characters skipped between tokens. -/
def isBlank (c : Char) : Bool :=
  c == ' ' || c == '\n' || c == '\t' || c == '\r'

/-- Punctuation of the configuration language. -/
def isSym (c : Char) : Bool :=
  c == '\x7b' || c == '\x7d' || c == '[' || c == ']' || c == '(' || c == ')' ||
  c == '=' || c == ';' || c == ','

/-- What the lexer is in the middle of. -/
inductive LexMode where
  /-- Between tokens. -/
  | code
  /-- Inside a bare word; the characters read so far, last first. -/
  | word (buf : List Char)
  /-- Inside a string literal; the characters read so far, last first. -/
  | strLit (buf : List Char)
  /-- Inside a string literal, right after a double quote: the literal ends
  here unless another double quote follows (a doubled quote stands for one). -/
  | strQuote (buf : List Char)
  /-- Right after a single `/`. -/
  | slash
  /-- Inside a `//` comment, up to the end of the line. -/
  | lineComment
  /-- Inside a block comment. -/
  | blockComment
  /-- Inside a block comment, right after a `*`. -/
  | blockStar
  /-- Inside a preprocessor line; the characters read so far, last first. -/
  | directive (buf : List Char)
  deriving DecidableEq, Repr

/-- The lexer state: the mode and the tokens produced so far, last first. -/
structure LexState where
  mode : LexMode
  toks : List Token
  deriving DecidableEq, Repr

/-- Read one character between tokens. -/
def lexCode (toks : List Token) (c : Char) : Option LexState :=
  if isBlank c then some ⟨.code, toks⟩
  else if isWordChar c then some ⟨.word [c], toks⟩
  else if c == '"' then some ⟨.strLit [], toks⟩
  else if c == '/' then some ⟨.slash, toks⟩
  else if c == '#' then some ⟨.directive [], toks⟩
  else if isSym c then some ⟨.code, .sym c :: toks⟩
  else none

/-- Read one character. -/
def lexStep (st : LexState) (c : Char) : Option LexState :=
  match st.mode with
  | .code => lexCode st.toks c
  | .word buf =>
      if isWordChar c then some ⟨.word (c :: buf), st.toks⟩
      else lexCode (.ident (String.mk buf.reverse) :: st.toks) c
  | .strLit buf =>
      if c == '"' then some ⟨.strQuote buf, st.toks⟩
      else some ⟨.strLit (c :: buf), st.toks⟩
  | .strQuote buf =>
      if c == '"' then some ⟨.strLit (c :: buf), st.toks⟩
      else lexCode (.str (String.mk buf.reverse) :: st.toks) c
  | .slash =>
      if c == '/' then some ⟨.lineComment, st.toks⟩
      else if c == '*' then some ⟨.blockComment, st.toks⟩
      else none
  | .lineComment =>
      if c == '\n' then some ⟨.code, st.toks⟩ else some ⟨.lineComment, st.toks⟩
  | .blockComment =>
      if c == '*' then some ⟨.blockStar, st.toks⟩ else some ⟨.blockComment, st.toks⟩
  | .blockStar =>
      if c == '/' then some ⟨.code, st.toks⟩
      else if c == '*' then some ⟨.blockStar, st.toks⟩
      else some ⟨.blockComment, st.toks⟩
  | .directive buf =>
      if c == '\n' then some ⟨.code, .directive (String.mk buf.reverse) :: st.toks⟩
      else some ⟨.directive (c :: buf), st.toks⟩

/-- Run the lexer over a character list. -/
def lexRun : LexState → List Char → Option LexState
  | st, [] => some st
  | st, c :: cs =>
      match lexStep st c with
      | some st1 => lexRun st1 cs
      | none => none

/-- Close the token in progress at the end of the input.  An unterminated
string literal or block comment is an error. -/
def lexFinish (st : LexState) : Option (List Token) :=
  match st.mode with
  | .code => some st.toks.reverse
  | .word buf => some (.ident (String.mk buf.reverse) :: st.toks).reverse
  | .strQuote buf => some (.str (String.mk buf.reverse) :: st.toks).reverse
  | .lineComment => some st.toks.reverse
  | .directive buf => some (.directive (String.mk buf.reverse) :: st.toks).reverse
  | .strLit _ => none
  | .slash => none
  | .blockComment => none
  | .blockStar => none

/-- The tokens of a text, or `none` when it is lexically ill-formed. -/
def tokenize (cs : List Char) : Option (List Token) :=
  match lexRun ⟨.code, []⟩ cs with
  | some st => lexFinish st
  | none => none

/-! ## Syntax tree -/

/-- A single value: what stands right of `=`, or one element of a brace list. -/
inductive Scalar where
  /-- A double-quoted string literal. -/
  | str (s : String)
  /-- A bare word: an identifier (which the preprocessor may replace) or a number. -/
  | word (w : String)
  /-- A bare word applied to a parenthesised argument list, as in `CSTRING(URL)`. -/
  | call (f : String) (args : List String)
  deriving DecidableEq, Repr

/-- The right-hand side of an entry. -/
inductive Value where
  /-- The value of a `key = value;` entry. -/
  | single (s : Scalar)
  /-- The value of a `key[] = {...};` entry. -/
  | list (xs : List Scalar)
  deriving DecidableEq, Repr

/-- One statement of a class body or of the top level. -/
inductive Item where
  /-- A preprocessor line. -/
  | directive (text : String)
  /-- An entry `name = value;` or `name[] = {...};`. -/
  | entry (name : String) (v : Value)
  /-- A standalone `WORD;` or `WORD(args);`. -/
  | stmt (s : Scalar)
  /-- A block `class name {...};`. -/
  | cls (name : String) (body : List Item)
  deriving Repr

/-! ## Parser -/

/-- The arguments of an invocation, after the opening parenthesis: words
separated by commas, up to the closing parenthesis. -/
def parseArgs : List Token → Option (List String × List Token)
  | .ident a :: .sym c :: rest =>
      if c == ')' then some ([a], rest)
      else if c == ',' then
        match parseArgs rest with
        | some (as, rest1) => some (a :: as, rest1)
        | none => none
      else none
  | _ => none

/-- One scalar: a string literal, a bare word, or a bare word with arguments. -/
def parseScalar : List Token → Option (Scalar × List Token)
  | .str s :: rest => some (.str s, rest)
  | .ident w :: .sym c :: rest =>
      if c == '(' then
        match rest with
        | .sym d :: rest1 =>
            if d == ')' then some (.call w [], rest1) else none
        | _ =>
            match parseArgs rest with
            | some (as, rest1) => some (.call w as, rest1)
            | none => none
      else some (.word w, .sym c :: rest)
  | .ident w :: rest => some (.word w, rest)
  | _ => none

/-- The elements of a brace list after the first one: each preceded by a comma,
up to the closing brace. -/
def parseListTail : Nat → List Token → Option (List Scalar × List Token)
  | 0, _ => none
  | fuel + 1, .sym c :: rest =>
      if c == '\x7d' then some ([], rest)
      else if c == ',' then
        match parseScalar rest with
        | some (x, rest1) =>
            match parseListTail fuel rest1 with
            | some (xs, rest2) => some (x :: xs, rest2)
            | none => none
        | none => none
      else none
  | _ + 1, _ => none

/-- A brace list, after the opening brace. -/
def parseList (fuel : Nat) : List Token → Option (List Scalar × List Token)
  | .sym c :: rest =>
      if c == '\x7d' then some ([], rest)
      else none
  | toks =>
      match parseScalar toks with
      | some (x, rest1) =>
          match parseListTail fuel rest1 with
          | some (xs, rest2) => some (x :: xs, rest2)
          | none => none
      | none => none

/-- Expect one punctuation character. -/
def expectSym (c : Char) : List Token → Option (List Token)
  | .sym d :: rest => if d == c then some rest else none
  | _ => none

/-- An entry or standalone statement that starts with the word `w`; `toks` is
what follows the word. -/
def parseAfterWord (fuel : Nat) (w : String) (toks : List Token) :
    Option (Item × List Token) :=
  match toks with
  | .sym c :: rest =>
      if c == '=' then
        match parseScalar rest with
        | some (x, rest1) =>
            match expectSym ';' rest1 with
            | some rest2 => some (.entry w (.single x), rest2)
            | none => none
        | none => none
      else if c == '[' then
        match expectSym ']' rest with
        | some rest1 =>
            match expectSym '=' rest1 with
            | some rest2 =>
                match expectSym '\x7b' rest2 with
                | some rest3 =>
                    match parseList fuel rest3 with
                    | some (xs, rest4) =>
                        match expectSym ';' rest4 with
                        | some rest5 => some (.entry w (.list xs), rest5)
                        | none => none
                    | none => none
                | none => none
            | none => none
        | none => none
      else
        match parseScalar (.ident w :: toks) with
        | some (x, rest1) =>
            match expectSym ';' rest1 with
            | some rest2 => some (.stmt x, rest2)
            | none => none
        | none => none
  | _ => none

/-- A sequence of statements.  At the top level (`inClass = false`) it runs to
the end of the input; inside a class body it runs to the closing `};`, which it
consumes.  The recursion is on `fuel`: every statement uses one unit. -/
def parseItems : Nat → Bool → List Token → Option (List Item × List Token)
  | 0, _, _ => none
  | _ + 1, inClass, [] => if inClass then none else some ([], [])
  | fuel + 1, inClass, tok :: toks =>
      match tok with
      | .directive d =>
          match parseItems fuel inClass toks with
          | some (items, rest) => some (.directive d :: items, rest)
          | none => none
      | .sym c =>
          if inClass && c == '\x7d' then
            match expectSym ';' toks with
            | some rest => some ([], rest)
            | none => none
          else none
      | .str _ => none
      | .ident w =>
          if w == "class" then
            match toks with
            | .ident name :: toks1 =>
                match expectSym '\x7b' toks1 with
                | some toks2 =>
                    match parseItems fuel true toks2 with
                    | some (body, toks3) =>
                        match parseItems fuel inClass toks3 with
                        | some (items, rest) => some (.cls name body :: items, rest)
                        | none => none
                    | none => none
                | none => none
            | _ => none
          else
            match parseAfterWord fuel w toks with
            | some (item, toks1) =>
                match parseItems fuel inClass toks1 with
                | some (items, rest) => some (item :: items, rest)
                | none => none
            | none => none

/-- The statements of a whole file, or `none` when the text is not
well-formed.  The parser is given one unit of fuel per token, and one more. -/
def parseConfig (cs : List Char) : Option (List Item) :=
  match tokenize cs with
  | some toks =>
      match parseItems (toks.length + 1) false toks with
      | some (items, _) => some items
      | none => none
  | none => none

/-- The statements of `src/addons/main/config.cpp`. -/
def config : Option (List Item) :=
  parseConfig configText

/-! ## Reading a parsed manifest -/

/-- The key of an entry as written left of `=`: the name, followed by `[]` when
the entry is an array entry. -/
def entryKey (name : String) : Value → String
  | .single _ => name
  | .list _ => name ++ "[]"

/-- What kind of statement an item is, without the body of a class. -/
inductive Shape where
  | directive (text : String)
  | entry (key : String)
  | stmt (s : Scalar)
  | cls (name : String)
  deriving DecidableEq, Repr

/-- The kind of an item. -/
def Item.shape : Item → Shape
  | .directive d => .directive d
  | .entry name v => .entry (entryKey name v)
  | .stmt s => .stmt s
  | .cls name _ => .cls name

/-- The entries declared directly in a body, as key and value, in order. -/
def entries : List Item → List (String × Value)
  | [] => []
  | .entry name v :: rest => (entryKey name v, v) :: entries rest
  | _ :: rest => entries rest

/-- The keys declared directly in a body, in order. -/
def entryKeys (body : List Item) : List String :=
  (entries body).map Prod.fst

/-- Every value declared for `key` directly in a body, in order. -/
def valuesOf (key : String) (body : List Item) : List Value :=
  ((entries body).filter (fun kv => kv.1 == key)).map Prod.snd

/-- The standalone statements directly in a body, in order. -/
def standalone : List Item → List Scalar
  | [] => []
  | .stmt s :: rest => s :: standalone rest
  | _ :: rest => standalone rest

/-- The names of the classes declared directly in a body, in order. -/
def classNames : List Item → List String
  | [] => []
  | .cls name _ :: rest => name :: classNames rest
  | _ :: rest => classNames rest

/-- The body of the first class called `name` declared directly in a body. -/
def findClass (name : String) : List Item → Option (List Item)
  | [] => none
  | .cls n body :: rest => if n == name then some body else findClass name rest
  | _ :: rest => findClass name rest

/-- The body of the class at a path of nested class names. -/
def classAt : List String → List Item → Option (List Item)
  | [], body => some body
  | name :: path, body =>
      match findClass name body with
      | some inner => classAt path inner
      | none => none

/-- The body of `CfgPatches.ADDON` in `config.cpp`. -/
def addonBody : Option (List Item) :=
  config.bind (classAt ["CfgPatches", "ADDON"])

/-- The body of `CfgMods.PREFIX` in `config.cpp`. -/
def modBody : Option (List Item) :=
  config.bind (classAt ["CfgMods", "PREFIX"])

/-- The content of a scalar that is a string literal. -/
def Scalar.literal : Scalar → Option String
  | .str s => some s
  | _ => none

/-- The content of a value that is a single string literal. -/
def Value.literal : Value → Option String
  | .single x => x.literal
  | .list _ => none

/-- The contents of a value that is a brace list of string literals only. -/
def Value.literals : Value → Option (List String)
  | .single _ => none
  | .list xs => xs.mapM Scalar.literal

/-- The bare word a scalar starts with, which the preprocessor may replace:
none for a string literal. -/
def Scalar.head : Scalar → Option String
  | .str _ => none
  | .word w => some w
  | .call f _ => some f

/-- The scalars of a value, in order. -/
def Value.scalars : Value → List Scalar
  | .single x => [x]
  | .list xs => xs

/-- Every scalar that occurs directly in a body, in entry values and as
standalone statements, in order. -/
def bodyScalars : List Item → List Scalar
  | [] => []
  | .entry _ v :: rest => v.scalars ++ bodyScalars rest
  | .stmt s :: rest => s :: bodyScalars rest
  | _ :: rest => bodyScalars rest

/-- The bare words that head a scalar directly in a body, in order of
appearance, repetitions included. -/
def usedIdents (body : List Item) : List String :=
  (bodyScalars body).filterMap Scalar.head

/-- A string in lower case, character by character. -/
def lowerStr (s : String) : String :=
  String.mk (s.data.map Char.toLower)

/-- The words `true` and `false`, in any letter case. -/
def isBoolWord (s : String) : Bool :=
  lowerStr s == "true" || lowerStr s == "false"

/-- One of the three forms of value the manifest uses: a string literal, a
brace list of string literals, or one of the invocations `COMPONENT_NAME`,
`REQUIRED_VERSION` and `CSTRING(...)`. -/
def Value.isManifestForm : Value → Bool
  | .single (.str _) => true
  | .single (.word w) => w == "COMPONENT_NAME" || w == "REQUIRED_VERSION"
  | .single (.call f _) => f == "CSTRING"
  | .list xs => xs.all (fun x => x.literal.isSome)

/-- The argument of every `CSTRING(arg)` in a token list, in order. -/
def cstringArgs : List Token → List String
  | [] => []
  | .ident f :: rest =>
      match rest with
      | .sym o :: .ident a :: .sym c :: _ =>
          if f == "CSTRING" && o == '(' && c == ')' then a :: cstringArgs rest
          else cstringArgs rest
      | _ => cstringArgs rest
  | _ :: rest => cstringArgs rest

/-- The number of `class` keywords in a token list. -/
def classKeywords (toks : List Token) : Nat :=
  toks.count (.ident "class")

/-- The text of a scalar that is a string literal or a bare word. -/
def Scalar.text : Scalar → Option String
  | .str s => some s
  | .word w => some w
  | .call _ _ => none

/-- A value that reads as a boolean: a single string literal or bare word whose
text is `true` or `false`. -/
def Value.isFlag : Value → Bool
  | .single x =>
      match x.text with
      | some s => isBoolWord s
      | none => false
  | .list _ => false

/-- The entries of a body whose value reads as a boolean, in order. -/
def flagEntries (body : List Item) : List (String × Value) :=
  (entries body).filter (fun kv => kv.2.isFlag)

/-! ## The manifest is well-formed -/

/-- The text of `config.cpp` is read without error, and this is its tree. -/
theorem config_eq :
    config = some
      [ .directive "include \"script_component.hpp\""
      , .cls "CfgPatches"
          [ .cls "ADDON"
              [ .entry "name" (.single (.word "COMPONENT_NAME"))
              , .entry "units" (.list [])
              , .entry "weapons" (.list [])
              , .entry "requiredVersion" (.single (.word "REQUIRED_VERSION"))
              , .entry "requiredAddons" (.list [.str "cba_ui", .str "cba_xeh", .str "cba_jr"])
              , .entry "author" (.single (.call "CSTRING" ["modteam"]))
              , .entry "authors" (.list [.str "Brostrom.A (Evul)"])
              , .entry "url" (.single (.call "CSTRING" ["URL"]))
              , .stmt (.word "VERSION_CONFIG") ] ]
      , .cls "CfgMods"
          [ .cls "PREFIX"
              [ .entry "dir" (.single (.str "@cavaux"))
              , .entry "name" (.single (.call "CSTRING" ["Name"]))
              , .entry "picture"
                  (.single (.str "A3\\Ui_f\\data\\Logos\\arma3_expansion_alpha_ca"))
              , .entry "hidePicture" (.single (.str "true"))
              , .entry "hideName" (.single (.str "true"))
              , .entry "actionName" (.single (.call "CSTRING" ["Website"]))
              , .entry "action" (.single (.call "CSTRING" ["Url"]))
              , .entry "description" (.single (.call "CSTRING" ["Description"])) ] ]
      , .directive "include \"CfgSettings.hpp\"" ] := by
  rfl

/-- The text has 820 characters, the size of the file in bytes. -/
theorem configText_length : configText.length = 820 := by
  decide

/-! ## Properties of the manifest -/

/-- C1: in `CfgPatches.ADDON` the key `requiredAddons[]` is declared once, and
its value is the brace list of the three string literals `"cba_ui"`,
`"cba_xeh"`, `"cba_jr"`, in that order and with no other element; the comment
line inside the braces contributes nothing. -/
theorem requiredAddons_exact :
    addonBody.map (valuesOf "requiredAddons[]") =
      some [.list [.str "cba_ui", .str "cba_xeh", .str "cba_jr"]] := by
  decide

/-- C2: in `CfgMods.PREFIX` the key `dir` is declared once, its value is the
string literal `"@cavaux"` (a literal, not a bare word or an invocation), and
the literal has 7 characters. -/
theorem modDir_literal :
    modBody.map (valuesOf "dir") = some [.single (.str "@cavaux")] ∧
    modBody.map (fun body => (valuesOf "dir" body).map
      (fun v => v.literal.map String.data)) =
      some [some ['@', 'c', 'a', 'v', 'a', 'u', 'x']] ∧
    modBody.map (fun body => (valuesOf "dir" body).map
      (fun v => v.literal.map String.length)) = some [some 7] := by
  decide

/-- C3: the statements of `CfgPatches.ADDON` are, in order, the entries `name`,
`units[]`, `weapons[]`, `requiredVersion`, `requiredAddons[]`, `author`,
`authors[]`, `url`, followed by the standalone `VERSION_CONFIG`, and nothing
else: those eight are all the keys, and `VERSION_CONFIG` is the only other
statement and the last one. -/
theorem addon_statements_in_order :
    addonBody.map (List.map Item.shape) =
      some [ .entry "name", .entry "units[]", .entry "weapons[]",
             .entry "requiredVersion", .entry "requiredAddons[]", .entry "author",
             .entry "authors[]", .entry "url", .stmt (.word "VERSION_CONFIG") ] ∧
    addonBody.map entryKeys =
      some [ "name", "units[]", "weapons[]", "requiredVersion", "requiredAddons[]",
             "author", "authors[]", "url" ] ∧
    addonBody.map standalone = some [.word "VERSION_CONFIG"] := by
  decide

/-- C4: the statements of `CfgMods.PREFIX` are, in order, the entries `dir`,
`name`, `picture`, `hidePicture`, `hideName`, `actionName`, `action`,
`description`, and nothing else. -/
theorem mod_statements_in_order :
    modBody.map (List.map Item.shape) =
      some [ .entry "dir", .entry "name", .entry "picture", .entry "hidePicture",
             .entry "hideName", .entry "actionName", .entry "action",
             .entry "description" ] ∧
    modBody.map entryKeys =
      some [ "dir", "name", "picture", "hidePicture", "hideName", "actionName",
             "action", "description" ] ∧
    modBody.map standalone = some [] := by
  decide

/-- C5: in `CfgPatches.ADDON` the array entries `units[]` and `weapons[]` are
each declared once, with the empty brace list as value. -/
theorem units_weapons_empty :
    addonBody.map (valuesOf "units[]") = some [.list []] ∧
    addonBody.map (valuesOf "weapons[]") = some [.list []] := by
  decide

/-- C6: the entries of `CfgMods.PREFIX` whose value reads as a boolean (quoted
or bare, in any letter case) are exactly two, `hidePicture` and `hideName`, in
that order; the value of each is a string literal, and its content is
`true`. -/
theorem displayFlags_are_true_strings :
    modBody.map flagEntries =
      some [ ("hidePicture", .single (.str "true")),
             ("hideName", .single (.str "true")) ] ∧
    modBody.map (valuesOf "hidePicture") = some [.single (.str "true")] ∧
    modBody.map (valuesOf "hideName") = some [.single (.str "true")] := by
  decide

/-- C7: at the top level the file has, between its two preprocessor lines,
exactly the two classes `CfgPatches` and `CfgMods`, in that order; the body of
`CfgPatches` is the one class `ADDON` and the body of `CfgMods` is the one class
`PREFIX`, with no entry beside them; the text has four `class` keywords in all,
so there is no further block. -/
theorem top_level_structure :
    config.map (List.map Item.shape) =
      some [ .directive "include \"script_component.hpp\"", .cls "CfgPatches",
             .cls "CfgMods", .directive "include \"CfgSettings.hpp\"" ] ∧
    config.map classNames = some ["CfgPatches", "CfgMods"] ∧
    config.map entryKeys = some [] ∧
    (config.bind (classAt ["CfgPatches"])).map (List.map Item.shape) =
      some [.cls "ADDON"] ∧
    (config.bind (classAt ["CfgMods"])).map (List.map Item.shape) =
      some [.cls "PREFIX"] ∧
    (tokenize configText).map classKeywords = some 4 := by
  decide

/-- C8: in the bodies of `CfgPatches.ADDON` and `CfgMods.PREFIX` every entry
value is a string literal, a brace list of string literals, or one of
`COMPONENT_NAME`, `REQUIRED_VERSION`, `CSTRING(...)`; the only standalone
statement is `VERSION_CONFIG`, in `ADDON`; and the bare words that head a value
or a statement in the two bodies form exactly the set `COMPONENT_NAME`,
`CSTRING`, `REQUIRED_VERSION`, `VERSION_CONFIG`. -/
theorem bodies_value_forms_and_identifiers :
    ∃ a m, addonBody = some a ∧ modBody = some m ∧
      (∀ kv ∈ entries a ++ entries m, kv.2.isManifestForm = true) ∧
      standalone a = [.word "VERSION_CONFIG"] ∧ standalone m = [] ∧
      classNames a = [] ∧ classNames m = [] ∧
      (usedIdents a ++ usedIdents m).toFinset =
        {"COMPONENT_NAME", "CSTRING", "REQUIRED_VERSION", "VERSION_CONFIG"} := by
  refine ⟨_, _, rfl, rfl, ?_⟩
  decide

/-- C9: no key is declared twice in `CfgPatches.ADDON`, none is declared twice
in `CfgMods.PREFIX`, and the identifiers listed in `requiredAddons[]` are
pairwise different, also after being put in lower case. -/
theorem keys_and_addons_unique :
    ∃ a m ids, addonBody = some a ∧ modBody = some m ∧
      (entryKeys a).Nodup ∧ (entryKeys m).Nodup ∧
      (valuesOf "requiredAddons[]" a).map Value.literals = [some ids] ∧
      ids.Nodup ∧ (ids.map lowerStr).Nodup := by
  refine ⟨_, _, ["cba_ui", "cba_xeh", "cba_jr"], rfl, rfl, ?_⟩
  decide

/-- C10: the value of `CfgPatches.ADDON.url` is `CSTRING(URL)` and the value of
`CfgMods.PREFIX.action` is `CSTRING(Url)`; the two arguments are equal in lower
case and different as written; the `CSTRING` arguments of the whole file are
`modteam`, `URL`, `Name`, `Website`, `Url`, `Description`, so that apart from
the two spellings of `url` the arguments are `modteam`, `Name`, `Website`,
`Description`, each of which occurs exactly once. -/
theorem url_keys_differ_in_case_only :
    addonBody.map (valuesOf "url") = some [.single (.call "CSTRING" ["URL"])] ∧
    modBody.map (valuesOf "action") = some [.single (.call "CSTRING" ["Url"])] ∧
    lowerStr "URL" = lowerStr "Url" ∧ "URL" ≠ "Url" ∧
    ∃ args, (tokenize configText).map cstringArgs = some args ∧
      args = ["modteam", "URL", "Name", "Website", "Url", "Description"] ∧
      args.filter (fun x => lowerStr x != lowerStr "URL") =
        ["modteam", "Name", "Website", "Description"] ∧
      (∀ x ∈ ["modteam", "Name", "Website", "Description"], args.count x = 1) ∧
      (args.map lowerStr).count (lowerStr "URL") = 2 := by
  refine ⟨by decide, by decide, by decide, by decide, _, rfl, ?_⟩
  decide

end Cavaux
